import Mathlib

/-!
Verification development for the TapeVault repository (`src/tapevault.py`):
a FUSE filesystem that merges the contents of a robotic tape library into one
read-only tree, backed by an SQLite catalog (`tapes`, `files`), an `mtx`
changer-status parser, a startup inventory reconciler, an indexer, and an
on-demand fetcher with a local cache.

The Python source is shallowly embedded here: pure fragments become Lean
functions, the SQLite tables become lists of rows, the filesystem cache and
the subprocess/lock effects of `open`/`fetch_file` become explicit state
passing plus an event trace.  SQL `LIKE` is modelled with SQLite's default
semantics (`%` matches any sequence, `_` any single character, ASCII letters
compare case-insensitively); the two `re.search` patterns of
`parse_mtx_status` are hand-compiled into deterministic matchers with
Python's leftmost-search and greedy-quantifier behaviour.
-/

namespace TapeVault

/-! ## Character and string helpers (Python semantics) -/

/-- ASCII lower-casing, as SQLite's default `LIKE` applies to `A`-`Z`. -/
def lowerAscii (c : Char) : Char :=
  if 'A' ≤ c ∧ c ≤ 'Z' then Char.ofNat (c.toNat + 32) else c

/-- Python's `\s` / `str.strip()` whitespace, restricted to ASCII. -/
def isWs (c : Char) : Bool :=
  c == ' ' || c == '\t' || c == '\n' || c == '\r' || c == '\x0b' || c == '\x0c'

/-- Python `line.strip()`. -/
def pyStrip (s : List Char) : List Char :=
  ((s.dropWhile isWs).reverse.dropWhile isWs).reverse

/-- Python `path.lstrip('/')`: drop every leading slash. -/
def lstripSlash (p : String) : String :=
  String.mk (p.data.dropWhile (fun c => c == '/'))

/-- Python `needle in hay` (substring test). -/
def containsSub (needle : List Char) : List Char → Bool
  | [] => needle.isPrefixOf ([] : List Char)
  | c :: rest => needle.isPrefixOf (c :: rest) || containsSub needle rest

/-- SQLite `LIKE`, fuel-driven so that it is structural (and hence
kernel-reducible): `%` matches any sequence, `_` exactly one character,
and ASCII letters compare case-insensitively.  `likeMatch` below supplies
sufficient fuel. -/
def likeMatchFuel : Nat → List Char → List Char → Bool
  | 0, _, _ => false
  | Nat.succ fuel, pat, s =>
    match pat, s with
    | [], [] => true
    | [], _ :: _ => false
    | '%' :: ps, s =>
      likeMatchFuel fuel ps s ||
        (match s with
         | [] => false
         | _ :: s' => likeMatchFuel fuel ('%' :: ps) s')
    | '_' :: _, [] => false
    | '_' :: ps, _ :: s' => likeMatchFuel fuel ps s'
    | p :: _, [] => (p == p) && false
    | p :: ps, c :: s' => lowerAscii p == lowerAscii c && likeMatchFuel fuel ps s'

/-- `pat LIKE`-matches `s` under SQLite's default semantics. -/
def likeMatch (pat s : String) : Bool :=
  likeMatchFuel (pat.data.length + s.data.length + 1) pat.data s.data

/-- Python `os.path.join` for two components. -/
def osPathJoin2 (a b : String) : String :=
  if (match b.data with | '/' :: _ => true | _ => false) then b
  else if a == "" then b
  else if (match a.data.getLast? with | some '/' => true | _ => false) then a ++ b
  else a ++ "/" ++ b

/-! ## Configuration defaults (the environment-variable fallbacks in the
source; the embedding models the default configuration) -/

def CHANGER_DEVICE : String := "/dev/sg1"
def TAPE_DEVICE : String := "/dev/st0"
def TEMP_MOUNT_BASE : String := "/tmp/ltfs_mounts"

/-- `os.path.join(TEMP_MOUNT_BASE, 'cache', vol_tag, rel_path)`. -/
def cachePathOf (vol_tag rel_path : String) : String :=
  osPathJoin2 (osPathJoin2 (osPathJoin2 TEMP_MOUNT_BASE "cache") vol_tag) rel_path

/-- `os.path.join(TEMP_MOUNT_BASE, vol_tag)`. -/
def mountPointOf (vol_tag : String) : String :=
  osPathJoin2 TEMP_MOUNT_BASE vol_tag

/-! ## Catalog data model (the SQLite `tapes` and `files` tables) -/

/-- One row of the `files` table (the surrogate `id` is immaterial: the code
never reads it). -/
structure FileRow where
  vol_tag : String
  path : String
  size : Nat
  mtime : Int
deriving DecidableEq, Repr

/-- One row of the `tapes` table. -/
structure TapeRow where
  vol_tag : String
  last_seen : Nat
  total_space : Nat
  free_space : Nat
deriving DecidableEq, Repr

/-- The catalog database content. -/
structure Catalog where
  tapes : List TapeRow
  files : List FileRow
deriving DecidableEq, Repr

/-- `SELECT ... FROM tapes` projected to tags. -/
def dbTags (cat : Catalog) : List String := cat.tapes.map (fun t => t.vol_tag)

/-! ## getattr -/

def ENOENT : Nat := 2
def EIO : Nat := 5
def EACCES : Nat := 13

/-- Result of a filesystem callback: a value or a `FuseOSError(errno)`. -/
inductive FsResult (α : Type) where
  | ok (v : α)
  | err (errno : Nat)
deriving DecidableEq, Repr

/-- The dict returned by `TapeVault.getattr` (fields absent for directories
are `none`). -/
structure StatDict where
  st_mode : Nat
  st_nlink : Nat
  st_size : Option Nat
  st_mtime : Option Int
deriving DecidableEq, Repr

/-- `dict(st_mode=(S_IFDIR | 0o755), st_nlink=2)`. -/
def dirStat : StatDict := ⟨Nat.lor 0o40000 0o755, 2, none, none⟩

/-- `dict(st_mode=(S_IFREG | 0o444), st_nlink=1, st_size=..., st_mtime=...)`. -/
def fileStat (size : Nat) (mtime : Int) : StatDict :=
  ⟨Nat.lor 0o100000 0o444, 1, some size, some mtime⟩

/-- `TapeVault.getattr`: root is a directory; an exact `files.path` match is
a read-only regular file; a path with `LIKE`-children is a directory;
otherwise `ENOENT`. -/
def getattrOp (cat : Catalog) (path : String) : FsResult StatDict :=
  if path == "/" then FsResult.ok dirStat
  else
    let clean := lstripSlash path
    match cat.files.find? (fun r => r.path == clean) with
    | some r => FsResult.ok (fileStat r.size r.mtime)
    | none =>
      if cat.files.any (fun r => likeMatch (clean ++ "/%") r.path) then
        FsResult.ok dirStat
      else FsResult.err ENOENT

/-! ## readdir -/

/-- Python `p[len(prefix):].split('/')[0]`. -/
def firstSegmentOf (pfx p : String) : String :=
  String.mk ((p.data.drop pfx.data.length).takeWhile (fun c => !(c == '/')))

/-- The query prefix `TapeVault.readdir` builds from its path argument. -/
def pfxOf (path : String) : String :=
  let clean := lstripSlash path
  if clean == "" then "" else clean ++ "/"

/-- The row loop of `TapeVault.readdir`: append each nonempty, not yet seen
first segment. -/
def collectChildren (pfx : String) : List FileRow → List String → List String
  | [], _ => []
  | r :: rs, seen =>
    if firstSegmentOf pfx r.path ≠ "" ∧ firstSegmentOf pfx r.path ∉ seen then
      firstSegmentOf pfx r.path :: collectChildren pfx rs (firstSegmentOf pfx r.path :: seen)
    else
      collectChildren pfx rs seen

/-- `TapeVault.readdir`. -/
def readdirOp (cat : Catalog) (path : String) : List String :=
  let pfx := pfxOf path
  "." :: ".." ::
    collectChildren pfx (cat.files.filter (fun r => likeMatch (pfx ++ "%") r.path)) []

/-! ## Changer-status parsing (`parse_mtx_status`)

The two patterns `Data Transfer Element (\d+):Full.*VolumeTag\s*=\s*(\S+)`
and `Storage Element (\d+):Full.*VolumeTag\s*=\s*(\S+)` are hand-compiled.
Each sub-pattern after the literal is deterministic (a maximal digit run must
be followed by `:`, a maximal `\s*` run by `=`), so the only real choice
points are the `re.search` start position (leftmost wins) and the greedy
`.*` (the rightmost tail match wins, and `.` does not cross a newline). -/

/-- Strip a literal prefix, or fail. -/
def dropPre (lit s : List Char) : Option (List Char) :=
  if lit.isPrefixOf s then some (s.drop lit.length) else none

/-- `VolumeTag\s*=\s*(\S+)` anchored at the head; returns the captured tag. -/
def tailMatchAt (s : List Char) : Option String :=
  match dropPre "VolumeTag".data s with
  | none => none
  | some s1 =>
    match s1.dropWhile isWs with
    | '=' :: s3 =>
      let tag := (s3.dropWhile isWs).takeWhile (fun c => !isWs c)
      if tag.isEmpty then none else some (String.mk tag)
    | _ => none

/-- Greedy `.*` before the tail pattern: try the rightmost position first;
`.` does not match a newline. -/
def tailGreedy : List Char → Option String
  | [] => tailMatchAt []
  | c :: rest =>
    match (if c == '\n' then none else tailGreedy rest) with
    | some t => some t
    | none => tailMatchAt (c :: rest)

/-- `(\d+):Full.*VolumeTag\s*=\s*(\S+)` anchored right after the literal;
returns (element number, volume tag). -/
def matchAfterLit (s : List Char) : Option (String × String) :=
  let ds := s.takeWhile Char.isDigit
  if ds.isEmpty then none
  else
    match dropPre ":Full".data (s.drop ds.length) with
    | none => none
    | some s2 =>
      match tailGreedy s2 with
      | none => none
      | some tag => some (String.mk ds, tag)

/-- `re.search` for `<lit>(\d+):Full.*VolumeTag\s*=\s*(\S+)`: try every start
position left to right. -/
def reSearch (lit : List Char) : List Char → Option (String × String)
  | [] =>
    (match dropPre lit [] with
     | some s' => matchAfterLit s'
     | none => none)
  | c :: rest =>
    match (match dropPre lit (c :: rest) with
           | some s' => matchAfterLit s'
           | none => none) with
    | some g => some g
    | none => reSearch lit rest

def driveLit : List Char := "Data Transfer Element ".data
def storageLit : List Char := "Storage Element ".data

/-- The transient inventory snapshot produced by `parse_mtx_status`:
`tapes` (slot → tag, insertion-ordered with in-place overwrite) and
`drive_loaded`. -/
structure Snapshot where
  slots : List (String × String)
  driveLoaded : Option (String × String)
deriving DecidableEq, Repr

/-- Python dict assignment `tapes[slot_id] = vol_tag`. -/
def assocSet (m : List (String × String)) (k v : String) : List (String × String) :=
  match m with
  | [] => [(k, v)]
  | (k', v') :: rest =>
    if k' == k then (k, v) :: rest else (k', v') :: assocSet rest k v

/-- One iteration of the line loop of `parse_mtx_status` (the line is first
`strip()`ped; the drive pattern is tried before the storage pattern; the
`IMPORT/EXPORT` test and all unrecognised lines leave the state unchanged). -/
def parseLine (st : Snapshot) (line : String) : Snapshot :=
  let l := pyStrip line.data
  match reSearch driveLit l with
  | some dt => { st with driveLoaded := some dt }
  | none =>
    match reSearch storageLit l with
    | some nt => { st with slots := assocSet st.slots nt.1 nt.2 }
    | none => st

/-- `parse_mtx_status` over the (already split) output lines.  It is a total
function: no line can fail the probe. -/
def parseMtxStatus (lines : List String) : Snapshot :=
  lines.foldl parseLine ⟨[], none⟩

/-! ## The cache world and the effect traces of `open` / `fetch_file` -/

/-- A file in the local cache directory.  `complete` records whether the
copy that produced it ran to completion (`os.path.exists` cannot tell the
difference); `mode` is its permission bits (`shutil.copy2` preserves the
source file's mode; an interrupted copy leaves the creation-default mode). -/
structure CacheEntry where
  path : String
  complete : Bool
  mode : Nat
deriving DecidableEq, Repr

/-- The filesystem state the fetcher mutates: the set of cache files. -/
structure World where
  cacheEntries : List CacheEntry
deriving DecidableEq, Repr

def cacheLookup (w : World) (p : String) : Option CacheEntry :=
  w.cacheEntries.find? (fun e => e.path == p)

/-- `os.path.exists(cache_path)`. -/
def cacheExists (w : World) (p : String) : Bool :=
  (cacheLookup w p).isSome

/-- Observable effects of `open`/`fetch_file`: the drive lock, subprocess
invocations (`run_command`), and the final `os.open`. -/
inductive Event where
  | lockAcquire
  | lockRelease
  | subprocess (cmd : String)
  | osOpen (path : String) (flags : Nat)
deriving DecidableEq, Repr

def Event.isSubprocess : Event → Bool
  | .subprocess _ => true
  | _ => false

/-- Outcome of the `shutil.copy2` call: success, failure that leaves a
partially written destination file, or failure that leaves nothing. -/
inductive CopyOutcome where
  | success
  | failLeftover
  | failClean
deriving DecidableEq, Repr

/-- External nondeterminism resolved by the environment during a fetch: the
changer status probe, whether the LTFS mount succeeds, how the copy ends,
the tape file's mode (preserved by `copy2`) and the creation-default mode an
interrupted copy leaves behind. -/
structure FetchEnv where
  status : Snapshot
  mountOk : Bool
  copyOutcome : CopyOutcome
  srcMode : Nat
  leftoverMode : Nat

/-- `TapeVault.fetch_file(vol_tag, rel_path)`: returns the new world and the
event trace.  All paths release the drive lock; a copy failure is logged and
swallowed, and no leftover destination file is removed. -/
def fetch_file (env : FetchEnv) (w : World) (vol_tag rel_path : String) :
    World × List Event :=
  let cache_path := cachePathOf vol_tag rel_path
  if cacheExists w cache_path then
    (w, [Event.lockAcquire, Event.lockRelease])
  else
    let evs0 := [Event.lockAcquire,
                 Event.subprocess ("mtx -f " ++ CHANGER_DEVICE ++ " status")]
    let slot_id := (env.status.slots.find? (fun sv => sv.2 == vol_tag)).map (fun sv => sv.1)
    let in_drive :=
      match env.status.driveLoaded with
      | some dl => dl.2 == vol_tag
      | none => false
    if !in_drive && slot_id.isNone then
      (w, evs0 ++ [Event.lockRelease])
    else
      let loadEvs :=
        if !in_drive then
          [Event.subprocess ("mtx -f " ++ CHANGER_DEVICE ++ " unload || true"),
           Event.subprocess ("mtx -f " ++ CHANGER_DEVICE ++ " load " ++ slot_id.getD "" ++ " 0")]
        else []
      let mp := mountPointOf vol_tag
      let mountEv := [Event.subprocess ("ltfs -o devname=" ++ TAPE_DEVICE ++ " " ++ mp)]
      let w' :=
        if env.mountOk then
          match env.copyOutcome with
          | CopyOutcome.success =>
            { w with cacheEntries := w.cacheEntries ++ [⟨cache_path, true, env.srcMode⟩] }
          | CopyOutcome.failLeftover =>
            { w with cacheEntries := w.cacheEntries ++ [⟨cache_path, false, env.leftoverMode⟩] }
          | CopyOutcome.failClean => w
        else w
      let finEvs :=
        [Event.subprocess ("umount " ++ mp ++ " || fusermount -u " ++ mp)] ++
          (if !in_drive then
            [Event.subprocess ("mtx -f " ++ CHANGER_DEVICE ++ " unload " ++ slot_id.getD "" ++ " 0")]
           else [])
      (w', evs0 ++ loadEvs ++ mountEv ++ finEvs ++ [Event.lockRelease])

/-- `SELECT vol_tag, size FROM files WHERE path=?` followed by `rows[0]`. -/
def openResolved (cat : Catalog) (path : String) : Option FileRow :=
  (cat.files.filter (fun r => r.path == lstripSlash path)).head?

/-- Model of `os.open(path, flags)` on an existing cache file, with an
owner-permission check: the low two flag bits select read (needs `0o400`),
write-only (needs `0o200`) or read-write access. -/
def osOpenResult (e : CacheEntry) (flags : Nat) : FsResult (String × Nat) :=
  let acc := Nat.land flags 3
  if acc == 0 then
    if Nat.land e.mode 0o400 != 0 then FsResult.ok (e.path, flags)
    else FsResult.err EACCES
  else if acc == 1 then
    if Nat.land e.mode 0o200 != 0 then FsResult.ok (e.path, flags)
    else FsResult.err EACCES
  else
    if Nat.land e.mode 0o400 != 0 && Nat.land e.mode 0o200 != 0 then
      FsResult.ok (e.path, flags)
    else FsResult.err EACCES

/-- `TapeVault.open(path, flags)`: resolve against the catalog, serve from
the cache when present, otherwise fetch and re-check; the flags are passed
through to `os.open` without any inspection. -/
def openOp (env : FetchEnv) (cat : Catalog) (w : World) (path : String) (flags : Nat) :
    FsResult (String × Nat) × World × List Event :=
  match openResolved cat path with
  | none => (FsResult.err ENOENT, w, [])
  | some r =>
    let clean := lstripSlash path
    let cache_path := cachePathOf r.vol_tag clean
    match cacheLookup w cache_path with
    | some e => (osOpenResult e flags, w, [Event.osOpen cache_path flags])
    | none =>
      let res := fetch_file env w r.vol_tag clean
      match cacheLookup res.1 cache_path with
      | some e => (osOpenResult e flags, res.1, res.2 ++ [Event.osOpen cache_path flags])
      | none => (FsResult.err EIO, res.1, res.2)

/-! ## Catalog mutations: indexing transaction, tape deletion, reconciler -/

/-- One walked entry `(rel_path, size, int(mtime))` produced by `os.walk`
over the mounted tape. -/
abbrev WalkEntry := String × Nat × Int

def mkFileRow (tag : String) (e : WalkEntry) : FileRow :=
  ⟨tag, e.1, e.2.1, e.2.2⟩

/-- The SQL statements `index_tape` issues on its connection (everything up
to the single `conn.commit()`). -/
inductive SqlStmt where
  | deleteFiles (tag : String)
  | insertFile (row : FileRow)
  | upsertTape (row : TapeRow)
  | commit
deriving DecidableEq, Repr

/-- A connection: the durably `committed` catalog plus the `pending`
uncommitted view of the open transaction. -/
structure DbConn where
  committed : Catalog
  pending : Catalog
deriving DecidableEq, Repr

/-- Execute one statement.  Only `commit` publishes the pending state.
`INSERT OR REPLACE` on the `vol_tag` primary key drops a conflicting tape
row and inserts the new one. -/
def execStmt (db : DbConn) : SqlStmt → DbConn
  | SqlStmt.deleteFiles tag =>
    { db with pending :=
        { db.pending with files := db.pending.files.filter (fun r => !(r.vol_tag == tag)) } }
  | SqlStmt.insertFile row =>
    { db with pending := { db.pending with files := db.pending.files ++ [row] } }
  | SqlStmt.upsertTape row =>
    { db with pending :=
        { db.pending with tapes :=
            db.pending.tapes.filter (fun t => !(t.vol_tag == row.vol_tag)) ++ [row] } }
  | SqlStmt.commit => { db with committed := db.pending }

def execAll (db : DbConn) (l : List SqlStmt) : DbConn := l.foldl execStmt db

/-- The statement sequence of the DB portion of `index_tape`: delete the
tag's file rows, insert every walked entry, upsert the tape row, then the
one `conn.commit()`. -/
def indexTapeStmts (tag : String) (now total free : Nat) (entries : List WalkEntry) :
    List SqlStmt :=
  SqlStmt.deleteFiles tag ::
    (entries.map (fun e => SqlStmt.insertFile (mkFileRow tag e)) ++
      [SqlStmt.upsertTape ⟨tag, now, total, free⟩, SqlStmt.commit])

/-- The committed effect of `index_tape`'s transaction (the spec's
`replace_tape_contents`). -/
def replaceTapeContents (cat : Catalog) (tag : String) (now total free : Nat)
    (entries : List WalkEntry) : Catalog :=
  { tapes := cat.tapes.filter (fun t => !(t.vol_tag == tag)) ++ [⟨tag, now, total, free⟩],
    files := cat.files.filter (fun r => !(r.vol_tag == tag)) ++ entries.map (mkFileRow tag) }

/-- The reconciler's per-tape removal in `inventory_and_index`
(`DELETE FROM files WHERE vol_tag=?` then `DELETE FROM tapes WHERE vol_tag=?`). -/
def dropTape (cat : Catalog) (tag : String) : Catalog :=
  { files := cat.files.filter (fun r => !(r.vol_tag == tag)),
    tapes := cat.tapes.filter (fun t => !(t.vol_tag == tag)) }

/-- The `/delete/<vol_tag>` web route: the same two `DELETE` statements. -/
def deleteTapeRoute (cat : Catalog) (vol_tag : String) : Catalog :=
  { files := cat.files.filter (fun r => !(r.vol_tag == vol_tag)),
    tapes := cat.tapes.filter (fun t => !(t.vol_tag == vol_tag)) }

/-- Referential integrity: every `files` row's tag names an existing
`tapes` row. -/
def fkInv (cat : Catalog) : Prop :=
  ∀ r ∈ cat.files, ∃ t ∈ cat.tapes, t.vol_tag = r.vol_tag

instance (cat : Catalog) : Decidable (fkInv cat) := by
  unfold fkInv; infer_instance

/-! ## Inventory reconciler (`inventory_and_index`) -/

/-- Data gathered while a tape is mounted during indexing. -/
structure IndexData where
  now : Nat
  total : Nat
  free : Nat
  entries : List WalkEntry

/-- Environment of one reconciler run: the changer snapshot and, per tape,
whether `index_tape` succeeds (and with what walk results) or raises (in
which case the exception is caught, logged, and the catalog untouched). -/
structure ReconEnv where
  status : Snapshot
  indexResult : String → Option IndexData

/-- `current_vol_tags`: slot tags plus the drive's tag. -/
def currentTags (st : Snapshot) : List String :=
  st.slots.map (fun sv => sv.2) ++
    (match st.driveLoaded with
     | some dl => [dl.2]
     | none => [])

/-- `missing_tapes = db_vol_tags - current_vol_tags` (iterated per row tag). -/
def reconcileMissing (env : ReconEnv) (cat : Catalog) : List String :=
  (dbTags cat).filter (fun v => !((currentTags env.status).contains v))

/-- `new_tapes = current_vol_tags - db_vol_tags` (a Python set, hence
deduplicated). -/
def reconcileNew (env : ReconEnv) (cat : Catalog) : List String :=
  ((currentTags env.status).dedup).filter (fun v => !((dbTags cat).contains v))

/-- One `index_tape(vol, ...)` call from the reconciler loop: on success the
tape's contents are replaced in one transaction; on failure the exception is
caught and the catalog is unchanged. -/
def applyIndex (env : ReconEnv) (cat : Catalog) (v : String) : Catalog :=
  match env.indexResult v with
  | some d => replaceTapeContents cat v d.now d.total d.free d.entries
  | none => cat

/-- `inventory_and_index`: drop every vanished tape, then index every new
one (both sets computed from the snapshot and the catalog as first read). -/
def inventory_and_index (env : ReconEnv) (cat : Catalog) : Catalog :=
  (reconcileNew env cat).foldl (applyIndex env)
    ((reconcileMissing env cat).foldl dropTape cat)

/-! ## Concrete fixtures used by witnesses and counterexamples -/

def worldEmpty : World := ⟨[]⟩

/-- A fetch environment in which the mount succeeds but the copy fails
half-way, leaving a partially written destination file with the
creation-default mode `0o644`. -/
def envC1 : FetchEnv :=
  ⟨⟨[("1", "VOL1")], none⟩, true, CopyOutcome.failLeftover, 0o444, 0o644⟩

def catC1 : Catalog := ⟨[⟨"VOL1", 0, 0, 0⟩], [⟨"VOL1", "data/a.bin", 100, 1000⟩]⟩

def cpC1 : String := "/tmp/ltfs_mounts/cache/VOL1/data/a.bin"

/-- The cache state after the failed copy of `data/a.bin` from `VOL1`. -/
def w1C1 : World := (fetch_file envC1 worldEmpty "VOL1" "data/a.bin").1

/-- A catalog whose single stored path `abc/x` is hit by the `LIKE`
wildcard `_` in the query pattern `a_c/%`. -/
def catWild : Catalog := ⟨[⟨"T1", 0, 0, 0⟩], [⟨"T1", "abc/x", 1, 0⟩]⟩

/-- A fetch environment whose details are irrelevant (cache hits only). -/
def envDummy : FetchEnv := ⟨⟨[], none⟩, true, CopyOutcome.success, 0o644, 0o644⟩

def catOpenW : Catalog := ⟨[⟨"T1", 0, 0, 0⟩], [⟨"T1", "a.txt", 5, 0⟩]⟩

def cpOpenW : String := "/tmp/ltfs_mounts/cache/T1/a.txt"

/-- A cache holding a completed, owner-writable copy of `a.txt` (the tape
file was mode `0o644` and `copy2` preserved it). -/
def wOpenW : World := ⟨[⟨cpOpenW, true, 0o644⟩]⟩

def catW : Catalog :=
  ⟨[⟨"VOL001", 5, 1000, 400⟩, ⟨"VOL002", 6, 1000, 600⟩],
   [⟨"VOL001", "data/a.bin", 100, 1000⟩, ⟨"VOL002", "data/b.bin", 200, 2000⟩]⟩

/-- A cache already holding `VOL001`'s `data/a.bin`. -/
def wHit : World := ⟨[⟨"/tmp/ltfs_mounts/cache/VOL001/data/a.bin", true, 0o444⟩]⟩

def catC5 : Catalog :=
  ⟨[⟨"OLD", 1, 10, 5⟩], [⟨"OLD", "o.bin", 1, 0⟩, ⟨"VOL9", "stale.bin", 2, 0⟩]⟩

/-- An `mtx` line that contains `IMPORT/EXPORT` yet matches the storage
pattern, because the code tests the patterns before the `IMPORT/EXPORT`
guard. -/
def ieLine : String := "Storage Element 7:Full IMPORT/EXPORT VolumeTag = ABC"

def envRecW : ReconEnv :=
  ⟨⟨[("1", "VOL001")], none⟩,
   fun v => if v == "VOL001" then some ⟨5, 1000, 400, [("data/a.bin", 100, 1000)]⟩ else none⟩

def catEmpty : Catalog := ⟨[], []⟩

/-! ## Theorems -/

/-- C1 (code bug): when the copy step of a fetch fails half-way, the code
does release the tape (the unmount runs) but it neither removes the
partially written cache file nor surfaces an I/O failure: the leftover file
remains (flagged incomplete), a retried fetch sees it and performs zero
subprocess invocations, and `open` happily returns a handle onto the partial
file instead of `EIO`. -/
theorem fetch_copy_failure_leaves_stale_cache :
    (cacheLookup w1C1 cpC1 = some ⟨cpC1, false, 0o644⟩) ∧
    ((fetch_file envC1 worldEmpty "VOL1" "data/a.bin").2.contains
        (Event.subprocess
          ("umount /tmp/ltfs_mounts/VOL1 || fusermount -u /tmp/ltfs_mounts/VOL1")) = true) ∧
    (fetch_file envC1 w1C1 "VOL1" "data/a.bin" =
        (w1C1, [Event.lockAcquire, Event.lockRelease])) ∧
    ((openOp envC1 catC1 w1C1 "/data/a.bin" 0).1 = FsResult.ok (cpC1, 0)) := by
  decide

/-- C2 counterexample: `open` with write flags (`O_WRONLY`, low bits `1`)
returns a usable handle when the cached copy is writable, so the claim that
every write-flag open fails with Permission Denied is false. -/
theorem open_write_flags_can_succeed :
    Nat.land 1 3 ≠ 0 ∧
    (openOp envDummy catOpenW wOpenW "/a.txt" 1).1 = FsResult.ok (cpOpenW, 1) := by
  decide

/-- C2 amended: `open` never inspects the flags itself; on a cache hit it
hands them unchanged to `os.open`, whose permission check on the cached
file's mode is the only gate — in particular a write-only open of an
owner-writable cached copy succeeds. -/
theorem open_flags_passthrough (env : FetchEnv) (cat : Catalog) (w : World)
    (path : String) (flags : Nat) (r : FileRow) (e : CacheEntry)
    (hr : openResolved cat path = some r)
    (he : cacheLookup w (cachePathOf r.vol_tag (lstripSlash path)) = some e) :
    openOp env cat w path flags =
      (osOpenResult e flags, w,
        [Event.osOpen (cachePathOf r.vol_tag (lstripSlash path)) flags]) ∧
    (Nat.land flags 3 = 1 → Nat.land e.mode 0o200 ≠ 0 →
      (openOp env cat w path flags).1 = FsResult.ok (e.path, flags)) := by
  have h1 : openOp env cat w path flags =
      (osOpenResult e flags, w,
        [Event.osOpen (cachePathOf r.vol_tag (lstripSlash path)) flags]) := by
    simp [openOp, hr, he]
  refine ⟨h1, fun hacc hmode => ?_⟩
  rw [h1]
  simp [osOpenResult, hacc, hmode]

theorem open_flags_passthrough_witness :
    openOp envDummy catOpenW wOpenW "/a.txt" 1 =
      (osOpenResult ⟨cpOpenW, true, 0o644⟩ 1, wOpenW,
        [Event.osOpen (cachePathOf "T1" (lstripSlash "/a.txt")) 1]) ∧
    (Nat.land 1 3 = 1 → Nat.land (0o644 : Nat) 0o200 ≠ 0 →
      (openOp envDummy catOpenW wOpenW "/a.txt" 1).1 = FsResult.ok (cpOpenW, 1)) :=
  open_flags_passthrough envDummy catOpenW wOpenW "/a.txt" 1
    ⟨"T1", "a.txt", 5, 0⟩ ⟨cpOpenW, true, 0o644⟩ (by decide) (by decide)

/-- C3 counterexample: for the path `/a_c` no stored path equals `a_c` and
no stored path begins with `a_c/`, so the claim demands `NotFound`; but the
`_` in the SQL `LIKE` pattern `a_c/%` matches the `b` of `abc/x` and
`getattr` answers with a directory. -/
theorem getattr_like_wildcard_counterexample :
    getattrOp catWild "/a_c" = FsResult.ok dirStat ∧
    (∀ r ∈ catWild.files, r.path ≠ lstripSlash "/a_c") ∧
    (∀ r ∈ catWild.files, ("a_c/".data.isPrefixOf r.path.data) = false) := by
  decide

/-- C3 amended: `getattr` behaves as the claim says except that the
directory test is the SQLite `LIKE` pattern `path + '/%'` (with `%`/`_`
wildcards and ASCII case-insensitivity) rather than a literal
begins-with-`path + '/'` test: the root is always a directory `0755`; an
exact catalog match is a regular file `0444` with the row's size and mtime;
otherwise a `LIKE` child makes it a directory `0755`; otherwise `ENOENT`. -/
theorem getattr_characterization (cat : Catalog) (path : String) :
    (path = "/" → getattrOp cat path = FsResult.ok dirStat) ∧
    (path ≠ "/" → (∃ r ∈ cat.files, r.path = lstripSlash path) →
      ∃ r ∈ cat.files, r.path = lstripSlash path ∧
        getattrOp cat path = FsResult.ok (fileStat r.size r.mtime)) ∧
    (path ≠ "/" → (∀ r ∈ cat.files, r.path ≠ lstripSlash path) →
      (∃ r ∈ cat.files, likeMatch (lstripSlash path ++ "/%") r.path = true) →
      getattrOp cat path = FsResult.ok dirStat) ∧
    (path ≠ "/" → (∀ r ∈ cat.files, r.path ≠ lstripSlash path) →
      (∀ r ∈ cat.files, likeMatch (lstripSlash path ++ "/%") r.path = false) →
      getattrOp cat path = FsResult.err ENOENT) := by
  refine ⟨fun h => by simp [getattrOp, h], fun hne hex => ?_, fun hne hnex hlike => ?_,
    fun hne hnex hnlike => ?_⟩
  · have hfind : (cat.files.find? (fun r => r.path == lstripSlash path)).isSome := by
      rw [List.find?_isSome]
      obtain ⟨r, hrm, hrp⟩ := hex
      exact ⟨r, hrm, by simp [hrp]⟩
    obtain ⟨r, hr⟩ := Option.isSome_iff_exists.mp hfind
    have hmem := List.mem_of_find?_eq_some hr
    have hpath : r.path = lstripSlash path := by
      have := List.find?_some hr
      simpa using this
    refine ⟨r, hmem, hpath, ?_⟩
    simp [getattrOp, hne, hr]
  · have hfind : cat.files.find? (fun r => r.path == lstripSlash path) = none := by
      rw [List.find?_eq_none]
      intro r hrm
      simp [hnex r hrm]
    have hany : cat.files.any (fun r => likeMatch (lstripSlash path ++ "/%") r.path) = true := by
      rw [List.any_eq_true]
      obtain ⟨r, hrm, h⟩ := hlike
      exact ⟨r, hrm, h⟩
    simp [getattrOp, hne, hfind, hany]
  · have hfind : cat.files.find? (fun r => r.path == lstripSlash path) = none := by
      rw [List.find?_eq_none]
      intro r hrm
      simp [hnex r hrm]
    have hany : cat.files.any (fun r => likeMatch (lstripSlash path ++ "/%") r.path) = false := by
      rw [List.any_eq_false]
      intro r hrm
      simp [hnlike r hrm]
    simp [getattrOp, hne, hfind, hany]

theorem getattr_characterization_witness :
    (∃ r ∈ catW.files, r.path = lstripSlash "/data/a.bin" ∧
      getattrOp catW "/data/a.bin" = FsResult.ok (fileStat r.size r.mtime)) ∧
    getattrOp catW "/zzz" = FsResult.err ENOENT :=
  ⟨(getattr_characterization catW "/data/a.bin").2.1 (by decide) (by decide),
   (getattr_characterization catW "/zzz").2.2.2 (by decide) (by decide) (by decide)⟩

/-- Structure of the `readdir` row loop: the collected children are exactly
the nonempty first segments (after dropping the query prefix) of the rows,
deduplicated (h helper for the C4/C10 theorems). -/
theorem collectChildren_spec (pfx : String) :
    ∀ (rows : List FileRow) (seen : List String),
      (collectChildren pfx rows seen).Nodup ∧
      (∀ s, s ∈ collectChildren pfx rows seen ↔
        (s ∉ seen ∧ s ≠ "" ∧ ∃ r ∈ rows, firstSegmentOf pfx r.path = s)) := by
  intro rows
  induction rows with
  | nil => intro seen; simp [collectChildren]
  | cons r rs ih =>
    intro seen
    by_cases hc : firstSegmentOf pfx r.path ≠ "" ∧ firstSegmentOf pfx r.path ∉ seen
    · rw [collectChildren, if_pos hc]
      obtain ⟨nd, mem⟩ := ih (firstSegmentOf pfx r.path :: seen)
      refine ⟨List.nodup_cons.mpr ⟨fun hmem => ((mem _).mp hmem).1 (List.mem_cons_self _ _), nd⟩,
        fun s => ?_⟩
      constructor
      · intro hs
        rcases List.mem_cons.mp hs with h | h
        · subst h
          exact ⟨hc.2, hc.1, r, List.mem_cons_self r rs, rfl⟩
        · obtain ⟨hnotin, hne, r', hr', hseg⟩ := (mem s).mp h
          exact ⟨fun hseen => hnotin (List.mem_cons_of_mem _ hseen), hne, r',
            List.mem_cons_of_mem _ hr', hseg⟩
      · rintro ⟨hseen, hne, r', hr', hseg⟩
        by_cases hsc : s = firstSegmentOf pfx r.path
        · exact hsc ▸ List.mem_cons_self _ _
        · have hr'' : r' ∈ rs := by
            rcases List.mem_cons.mp hr' with h | h
            · exact absurd (h ▸ hseg) (fun hh => hsc hh.symm)
            · exact h
          refine List.mem_cons_of_mem _ ((mem s).mpr ⟨?_, hne, r', hr'', hseg⟩)
          intro hx
          rcases List.mem_cons.mp hx with h | h
          · exact hsc h
          · exact hseen h
    · rw [collectChildren, if_neg hc]
      obtain ⟨nd, mem⟩ := ih seen
      refine ⟨nd, fun s => ?_⟩
      rw [mem s]
      constructor
      · rintro ⟨h1, h2, r', hr', hseg⟩
        exact ⟨h1, h2, r', List.mem_cons_of_mem _ hr', hseg⟩
      · rintro ⟨h1, h2, r', hr', hseg⟩
        refine ⟨h1, h2, ?_⟩
        rcases List.mem_cons.mp hr' with h | h
        · exfalso
          rw [h] at hseg
          rcases not_and_or.mp hc with h' | h'
          · rw [not_ne_iff] at h'
            exact h2 (hseg ▸ h')
          · rw [not_not] at h'
            exact h1 (hseg ▸ h')
        · exact ⟨r', h, hseg⟩

/-- C4 counterexample: every line of the claim's listing for `/a_c` should
come from an entry whose stored path begins with `a_c/`; no such entry
exists, yet `readdir` emits the extra child `x` because the SQL `LIKE`
wildcard `_` matches `abc/x`. -/
theorem readdir_like_wildcard_counterexample :
    readdirOp catWild "/a_c" = [".", "..", "x"] ∧
    (∀ r ∈ catWild.files, ("a_c/".data.isPrefixOf r.path.data) = false) := by
  decide

/-- C4 amended: `readdir` emits `.`, `..` and then, exactly once each, every
distinct nonempty first segment (after dropping the query prefix) of the
entries whose stored path matches the SQLite `LIKE` pattern `path + '/%'`
(with `%`/`_` wildcards and ASCII case-insensitivity; all entries when the
path is `/`) — rather than of the entries whose path literally begins with
`path + '/'`. -/
theorem readdir_children_characterization (cat : Catalog) (path : String) :
    ∃ L, readdirOp cat path = "." :: ".." :: L ∧ L.Nodup ∧
      ∀ s, s ∈ L ↔ (s ≠ "" ∧ ∃ r ∈ cat.files,
        likeMatch (pfxOf path ++ "%") r.path = true ∧
          firstSegmentOf (pfxOf path) r.path = s) := by
  refine ⟨collectChildren (pfxOf path)
    (cat.files.filter (fun r => likeMatch (pfxOf path ++ "%") r.path)) [], rfl,
    (collectChildren_spec _ _ _).1, fun s => ?_⟩
  rw [(collectChildren_spec _ _ _).2 s]
  constructor
  · rintro ⟨-, h2, r, hr, hseg⟩
    have hm := List.mem_filter.mp hr
    exact ⟨h2, r, hm.1, hm.2, hseg⟩
  · rintro ⟨h2, r, hrf, hlike, hseg⟩
    exact ⟨List.not_mem_nil s, h2, r, List.mem_filter.mpr ⟨hrf, hlike⟩, hseg⟩

/-- C10 counterexample: no stored path of the catalog lies under `/a_c`,
yet `readdir('/a_c')` is not `['.', '..']`: the `LIKE` wildcard pulls in the
entry `abc/x`. -/
theorem readdir_nonexistent_counterexample :
    (∀ r ∈ catWild.files, ("a_c/".data.isPrefixOf r.path.data) = false) ∧
    readdirOp catWild "/a_c" ≠ [".", ".."] := by
  decide

/-- C10 amended: `readdir` is total and always begins with `.`, `..`; when
no stored path matches the SQLite `LIKE` pattern `path + '/%'` (instead of:
lies under `path`), it returns exactly `['.', '..']` and in particular
raises no not-found error. -/
theorem readdir_total_with_dot_entries (cat : Catalog) (path : String) :
    (∃ L, readdirOp cat path = "." :: ".." :: L) ∧
    ((∀ r ∈ cat.files, likeMatch (pfxOf path ++ "%") r.path = false) →
      readdirOp cat path = [".", ".."]) := by
  refine ⟨⟨_, rfl⟩, fun h => ?_⟩
  have hnil : cat.files.filter (fun r => likeMatch (pfxOf path ++ "%") r.path) = [] := by
    rw [List.filter_eq_nil_iff]
    intro a ha
    simp [h a ha]
  simp [readdirOp, hnil, collectChildren]

theorem readdir_total_witness :
    (∀ r ∈ catW.files, likeMatch (pfxOf "/zzz" ++ "%") r.path = false) ∧
    readdirOp catW "/zzz" = [".", ".."] :=
  ⟨by decide, (readdir_total_with_dot_entries catW "/zzz").2 (by decide)⟩

/-- Helper: a run of `insertFile` statements appends the rows to the pending
files, touching neither the pending tapes nor the committed state. -/
theorem execAll_insertRun (tag : String) (es : List WalkEntry) :
    ∀ db : DbConn,
      ((execAll db (es.map (fun e => SqlStmt.insertFile (mkFileRow tag e)))).pending.files =
          db.pending.files ++ es.map (mkFileRow tag)) ∧
      ((execAll db (es.map (fun e => SqlStmt.insertFile (mkFileRow tag e)))).pending.tapes =
          db.pending.tapes) ∧
      ((execAll db (es.map (fun e => SqlStmt.insertFile (mkFileRow tag e)))).committed =
          db.committed) := by
  induction es with
  | nil => intro db; simp [execAll]
  | cons e es ih =>
    intro db
    rw [List.map_cons]
    have hstep : execAll db
        (SqlStmt.insertFile (mkFileRow tag e) ::
          es.map (fun x => SqlStmt.insertFile (mkFileRow tag x))) =
        execAll (execStmt db (SqlStmt.insertFile (mkFileRow tag e)))
          (es.map (fun x => SqlStmt.insertFile (mkFileRow tag x))) := rfl
    rw [hstep]
    obtain ⟨h1, h2, h3⟩ := ih (execStmt db (SqlStmt.insertFile (mkFileRow tag e)))
    refine ⟨?_, ?_, ?_⟩
    · rw [h1]; simp [execStmt, List.append_assoc]
    · rw [h2]; simp [execStmt]
    · rw [h3]; simp [execStmt]

/-- Helper: executing statements none of which is `commit` leaves the
committed catalog untouched. -/
theorem execAll_no_commit (L : List SqlStmt) :
    ∀ db : DbConn, (∀ s ∈ L, s ≠ SqlStmt.commit) →
      (execAll db L).committed = db.committed := by
  induction L with
  | nil => intro db _; rfl
  | cons s L ih =>
    intro db hL
    have hstep : execAll db (s :: L) = execAll (execStmt db s) L := rfl
    rw [hstep, ih _ (fun x hx => hL x (List.mem_cons_of_mem _ hx))]
    cases s with
    | deleteFiles tag => rfl
    | insertFile row => rfl
    | upsertTape row => rfl
    | commit => exact absurd rfl (hL _ (List.mem_cons_self _ _))

/-- Helper: splitting off the trailing `commit` of the indexing statement
list. -/
theorem indexTapeStmts_split (tag : String) (now total free : Nat)
    (entries : List WalkEntry) :
    indexTapeStmts tag now total free entries =
      (SqlStmt.deleteFiles tag ::
        (entries.map (fun e => SqlStmt.insertFile (mkFileRow tag e)) ++
          [SqlStmt.upsertTape ⟨tag, now, total, free⟩])) ++ [SqlStmt.commit] := by
  simp [indexTapeStmts]

/-- Helper: `execAll` distributes over list append. -/
theorem execAll_append (db : DbConn) (l1 l2 : List SqlStmt) :
    execAll db (l1 ++ l2) = execAll (execAll db l1) l2 := by
  simp [execAll, List.foldl_append]

/-- Helper: rows already filtered away from a tag never pass the tag
filter. -/
theorem filter_tag_of_filtered_ne (files : List FileRow) (tag : String) :
    (files.filter (fun r => !(r.vol_tag == tag))).filter
      (fun r => r.vol_tag == tag) = [] := by
  induction files with
  | nil => rfl
  | cons a l ih =>
    by_cases ha : (a.vol_tag == tag) = true
    · simp [List.filter_cons, ha, ih]
    · simp [List.filter_cons, ha, ih]

/-- Helper: rows built for a tag all pass the tag filter. -/
theorem filter_tag_of_map (tag : String) (es : List WalkEntry) :
    (es.map (mkFileRow tag)).filter (fun r => r.vol_tag == tag) =
      es.map (mkFileRow tag) := by
  induction es with
  | nil => rfl
  | cons e es ih => simp [List.filter_cons, mkFileRow, ih]

/-- C5: running `index_tape`'s statement sequence commits exactly the
delete-then-reinsert replacement — afterwards the `files` rows carrying the
tag are exactly the walked entries — via a single `commit` that is the last
statement, so no prefix of the run changes the visible catalog: the
replacement is atomic. -/
theorem index_tape_transaction (cat : Catalog) (tag : String) (now total free : Nat)
    (entries : List WalkEntry) :
    ((execAll ⟨cat, cat⟩ (indexTapeStmts tag now total free entries)).committed =
        replaceTapeContents cat tag now total free entries) ∧
    ((execAll ⟨cat, cat⟩ (indexTapeStmts tag now total free entries)).committed.files.filter
        (fun r => r.vol_tag == tag) = entries.map (mkFileRow tag)) ∧
    ((indexTapeStmts tag now total free entries).countP
        (fun s => s == SqlStmt.commit) = 1) ∧
    (∀ k, k < (indexTapeStmts tag now total free entries).length →
      (execAll ⟨cat, cat⟩ ((indexTapeStmts tag now total free entries).take k)).committed
        = cat) := by
  have hmain : (execAll ⟨cat, cat⟩ (indexTapeStmts tag now total free entries)).committed =
      replaceTapeContents cat tag now total free entries := by
    have h0 : execAll ⟨cat, cat⟩ (indexTapeStmts tag now total free entries) =
        execAll (execAll (execStmt ⟨cat, cat⟩ (SqlStmt.deleteFiles tag))
            (entries.map (fun e => SqlStmt.insertFile (mkFileRow tag e))))
          [SqlStmt.upsertTape ⟨tag, now, total, free⟩, SqlStmt.commit] := by
      show execAll (execStmt ⟨cat, cat⟩ (SqlStmt.deleteFiles tag))
          (entries.map (fun e => SqlStmt.insertFile (mkFileRow tag e)) ++
            [SqlStmt.upsertTape ⟨tag, now, total, free⟩, SqlStmt.commit]) = _
      rw [execAll_append]
    obtain ⟨h1, h2, h3⟩ :=
      execAll_insertRun tag entries (execStmt ⟨cat, cat⟩ (SqlStmt.deleteFiles tag))
    have hfin : (execAll (execAll (execStmt ⟨cat, cat⟩ (SqlStmt.deleteFiles tag))
          (entries.map (fun e => SqlStmt.insertFile (mkFileRow tag e))))
          [SqlStmt.upsertTape ⟨tag, now, total, free⟩, SqlStmt.commit]).committed =
        { tapes := (execAll (execStmt ⟨cat, cat⟩ (SqlStmt.deleteFiles tag))
              (entries.map (fun e => SqlStmt.insertFile (mkFileRow tag e)))).pending.tapes.filter
                (fun t => !(t.vol_tag == tag)) ++ [⟨tag, now, total, free⟩],
          files := (execAll (execStmt ⟨cat, cat⟩ (SqlStmt.deleteFiles tag))
              (entries.map (fun e => SqlStmt.insertFile (mkFileRow tag e)))).pending.files } := rfl
    rw [h0, hfin, h1, h2]
    simp [execStmt, replaceTapeContents]
  refine ⟨hmain, ?_, ?_, ?_⟩
  · rw [hmain]
    show ((cat.files.filter (fun r => !(r.vol_tag == tag)) ++
        entries.map (mkFileRow tag)).filter (fun r => r.vol_tag == tag)) =
      entries.map (mkFileRow tag)
    rw [List.filter_append, filter_tag_of_filtered_ne, filter_tag_of_map, List.nil_append]
  · rw [indexTapeStmts]
    rw [List.countP_cons]
    rw [List.countP_append]
    have hz : (entries.map (fun e => SqlStmt.insertFile (mkFileRow tag e))).countP
        (fun s => s == SqlStmt.commit) = 0 := by
      rw [List.countP_eq_zero]
      intro s hs
      obtain ⟨e, he, rfl⟩ := List.mem_map.mp hs
      simp
    rw [hz]
    simp
  · intro k hk
    rw [indexTapeStmts_split] at hk ⊢
    have hk' : k ≤ (SqlStmt.deleteFiles tag ::
        (entries.map (fun e => SqlStmt.insertFile (mkFileRow tag e)) ++
          [SqlStmt.upsertTape ⟨tag, now, total, free⟩])).length := by
      rw [List.length_append] at hk
      simpa using Nat.lt_succ_iff.mp (by simpa using hk)
    rw [List.take_append_of_le_length hk']
    apply execAll_no_commit
    intro s hs
    have hs' := List.mem_of_mem_take hs
    rcases List.mem_cons.mp hs' with h | h
    · subst h; intro hcon; cases hcon
    · rcases List.mem_append.mp h with h | h
      · obtain ⟨e, he, rfl⟩ := List.mem_map.mp h
        intro hcon; cases hcon
      · rcases List.mem_cons.mp h with h | h
        · subst h; intro hcon; cases hcon
        · cases h

theorem index_tape_transaction_witness :
    ((execAll ⟨catC5, catC5⟩
        (indexTapeStmts "VOL9" 7 1000 400 [("data/a.bin", 100, 1000)])).committed.files.filter
          (fun r => r.vol_tag == "VOL9") =
        [("data/a.bin", (100 : Nat), (1000 : Int))].map (mkFileRow "VOL9")) ∧
    (0 < (indexTapeStmts "VOL9" 7 1000 400 [("data/a.bin", 100, 1000)]).length) ∧
    ((execAll ⟨catC5, catC5⟩
        ((indexTapeStmts "VOL9" 7 1000 400 [("data/a.bin", 100, 1000)]).take 0)).committed
      = catC5) :=
  ⟨(index_tape_transaction catC5 "VOL9" 7 1000 400 [("data/a.bin", 100, 1000)]).2.1,
   by decide,
   (index_tape_transaction catC5 "VOL9" 7 1000 400 [("data/a.bin", 100, 1000)]).2.2.2 0
     (by decide)⟩

/-- C6: the reconciler's per-tape drop, the indexing transaction's
replacement, and the web route's tape deletion each preserve the invariant
that every `files` row's volume tag references an existing `tapes` row. -/
theorem catalog_mutations_preserve_fk (cat : Catalog) (hfk : fkInv cat) :
    (∀ tag, fkInv (dropTape cat tag)) ∧
    (∀ tag now total free entries,
      fkInv (replaceTapeContents cat tag now total free entries)) ∧
    (∀ tag, fkInv (deleteTapeRoute cat tag)) := by
  refine ⟨?_, ?_, ?_⟩
  · intro tag r hr
    have hrmem := List.mem_filter.mp hr
    obtain ⟨t, ht, htag⟩ := hfk r hrmem.1
    refine ⟨t, List.mem_filter.mpr ⟨ht, ?_⟩, htag⟩
    rw [htag]
    exact hrmem.2
  · intro tag now total free entries r hr
    rcases List.mem_append.mp hr with h | h
    · have hm := List.mem_filter.mp h
      obtain ⟨t, ht, htag⟩ := hfk r hm.1
      refine ⟨t, List.mem_append.mpr (Or.inl (List.mem_filter.mpr ⟨ht, ?_⟩)), htag⟩
      rw [htag]
      exact hm.2
    · obtain ⟨e, he, rfl⟩ := List.mem_map.mp h
      exact ⟨⟨tag, now, total, free⟩,
        List.mem_append.mpr (Or.inr (List.mem_cons_self _ _)), rfl⟩
  · intro tag r hr
    have hrmem := List.mem_filter.mp hr
    obtain ⟨t, ht, htag⟩ := hfk r hrmem.1
    refine ⟨t, List.mem_filter.mpr ⟨ht, ?_⟩, htag⟩
    rw [htag]
    exact hrmem.2

theorem catalog_mutations_preserve_fk_witness :
    fkInv catW ∧ fkInv (dropTape catW "VOL002") ∧
    fkInv (replaceTapeContents catW "VOL001" 9 1000 500 [("data/c.bin", 10, 5)]) :=
  ⟨by decide, (catalog_mutations_preserve_fk catW (by decide)).1 "VOL002",
   (catalog_mutations_preserve_fk catW (by decide)).2.1 "VOL001" 9 1000 500
     [("data/c.bin", 10, 5)]⟩

/-- C7: on a cache hit, `fetch_file` only takes and releases the drive lock
— zero subprocess invocations — and the cache-hit fast path of `open` only
performs the `os.open`, taking no drive lock at all. -/
theorem cache_hit_no_subprocess_no_lock (env : FetchEnv) (cat : Catalog) (w : World)
    (path : String) (flags : Nat) (vol rel : String) (r : FileRow)
    (hf : cacheExists w (cachePathOf vol rel) = true)
    (hr : openResolved cat path = some r)
    (hc : cacheExists w (cachePathOf r.vol_tag (lstripSlash path)) = true) :
    ((fetch_file env w vol rel).2 = [Event.lockAcquire, Event.lockRelease]) ∧
    ((fetch_file env w vol rel).2.all (fun ev => !ev.isSubprocess) = true) ∧
    ((openOp env cat w path flags).2.2 =
        [Event.osOpen (cachePathOf r.vol_tag (lstripSlash path)) flags]) ∧
    ((openOp env cat w path flags).2.2.all
        (fun ev => !(ev == Event.lockAcquire)) = true) := by
  have h1 : fetch_file env w vol rel = (w, [Event.lockAcquire, Event.lockRelease]) := by
    simp [fetch_file, hf]
  obtain ⟨e, he⟩ := Option.isSome_iff_exists.mp hc
  have h2 : openOp env cat w path flags =
      (osOpenResult e flags, w,
        [Event.osOpen (cachePathOf r.vol_tag (lstripSlash path)) flags]) := by
    simp [openOp, hr, he]
  refine ⟨by rw [h1], by rw [h1]; rfl, by rw [h2], by rw [h2]; rfl⟩

/-- Helper: `List.contains` is false exactly off the member list. -/
theorem contains_eq_false_of_not_mem {v : String} {L : List String} (h : v ∉ L) :
    L.contains v = false := by
  rw [Bool.eq_false_iff]
  intro hc
  exact h (List.elem_iff.mp hc)

/-- Helper: `List.contains` is true on members. -/
theorem contains_eq_true_of_mem {v : String} {L : List String} (h : v ∈ L) :
    L.contains v = true :=
  List.elem_eq_true_of_mem h

/-- Helper: tags surviving a drop. -/
theorem mem_dbTags_dropTape (cat : Catalog) (tag v : String) :
    v ∈ dbTags (dropTape cat tag) ↔ (v ∈ dbTags cat ∧ v ≠ tag) := by
  constructor
  · intro h
    obtain ⟨t, ht, rfl⟩ := List.mem_map.mp h
    have hm := List.mem_filter.mp ht
    refine ⟨List.mem_map.mpr ⟨t, hm.1, rfl⟩, ?_⟩
    simpa using hm.2
  · rintro ⟨h, hne⟩
    obtain ⟨t, ht, rfl⟩ := List.mem_map.mp h
    exact List.mem_map.mpr ⟨t, List.mem_filter.mpr ⟨ht, by simpa using hne⟩, rfl⟩

/-- Helper: tags after the reconciler's deletion loop. -/
theorem mem_dbTags_foldDrop (L : List String) :
    ∀ (cat : Catalog) (v : String),
      v ∈ dbTags (L.foldl dropTape cat) ↔ (v ∈ dbTags cat ∧ v ∉ L) := by
  induction L with
  | nil => intro cat v; simp
  | cons t L ih =>
    intro cat v
    rw [List.foldl_cons, ih, mem_dbTags_dropTape]
    simp only [List.mem_cons, not_or]
    tauto

/-- Helper: tags after one successful replacement. -/
theorem mem_dbTags_replace (cat : Catalog) (tag : String) (now total free : Nat)
    (entries : List WalkEntry) (v : String) :
    v ∈ dbTags (replaceTapeContents cat tag now total free entries) ↔
      (v ∈ dbTags cat ∨ v = tag) := by
  show v ∈ (cat.tapes.filter (fun t => !(t.vol_tag == tag)) ++
      [(⟨tag, now, total, free⟩ : TapeRow)]).map (fun t => t.vol_tag) ↔ _
  rw [List.map_append, List.mem_append]
  constructor
  · rintro (h | h)
    · obtain ⟨t, ht, rfl⟩ := List.mem_map.mp h
      exact Or.inl (List.mem_map.mpr ⟨t, (List.mem_filter.mp ht).1, rfl⟩)
    · simp only [List.map_cons, List.map_nil, List.mem_singleton] at h
      exact Or.inr h
  · rintro (h | rfl)
    · by_cases hv : v = tag
      · subst hv
        exact Or.inr (by simp)
      · obtain ⟨t, ht, rfl⟩ := List.mem_map.mp h
        exact Or.inl (List.mem_map.mpr
          ⟨t, List.mem_filter.mpr ⟨ht, by simpa using hv⟩, rfl⟩)
    · exact Or.inr (by simp)

/-- Helper: tags after the reconciler's indexing loop when every indexing
succeeds. -/
theorem mem_dbTags_foldIndex (env : ReconEnv) (L : List String) :
    ∀ (cat : Catalog) (v : String),
      (∀ u ∈ L, (env.indexResult u).isSome = true) →
      (v ∈ dbTags (L.foldl (applyIndex env) cat) ↔ (v ∈ dbTags cat ∨ v ∈ L)) := by
  induction L with
  | nil => intro cat v _; simp
  | cons u L ih =>
    intro cat v hL
    rw [List.foldl_cons]
    obtain ⟨d, hd⟩ := Option.isSome_iff_exists.mp (hL u (List.mem_cons_self _ _))
    have happ : applyIndex env cat u =
        replaceTapeContents cat u d.now d.total d.free d.entries := by
      simp [applyIndex, hd]
    rw [happ, ih _ v (fun x hx => hL x (List.mem_cons_of_mem _ hx)), mem_dbTags_replace]
    simp only [List.mem_cons]
    tauto

/-- C8: after one reconciler run in which every new tape indexes
successfully, a second run against the same physical snapshot computes an
empty missing set and an empty new set — it deletes no tape or file row and
indexes no tape — and consequently leaves the catalog exactly as the first
run left it. -/
theorem reconcile_idempotent (env : ReconEnv) (cat : Catalog)
    (hsucc : ∀ v ∈ reconcileNew env cat, (env.indexResult v).isSome = true) :
    reconcileMissing env (inventory_and_index env cat) = [] ∧
    reconcileNew env (inventory_and_index env cat) = [] ∧
    inventory_and_index env (inventory_and_index env cat) = inventory_and_index env cat := by
  have hmem : ∀ v, v ∈ dbTags (inventory_and_index env cat) ↔
      ((v ∈ dbTags cat ∧ v ∉ reconcileMissing env cat) ∨ v ∈ reconcileNew env cat) := by
    intro v
    have h0 : inventory_and_index env cat =
        (reconcileNew env cat).foldl (applyIndex env)
          ((reconcileMissing env cat).foldl dropTape cat) := rfl
    rw [h0, mem_dbTags_foldIndex env _ _ v hsucc, mem_dbTags_foldDrop]
  have hsub : ∀ v ∈ dbTags (inventory_and_index env cat), v ∈ currentTags env.status := by
    intro v hv
    rcases (hmem v).mp hv with ⟨hdb, hnm⟩ | hnew
    · by_contra hcur
      apply hnm
      refine List.mem_filter.mpr ⟨hdb, ?_⟩
      rw [Bool.not_eq_true']
      exact contains_eq_false_of_not_mem hcur
    · have := (List.mem_filter.mp hnew).1
      exact List.mem_dedup.mp this
  have hsub2 : ∀ v ∈ currentTags env.status, v ∈ dbTags (inventory_and_index env cat) := by
    intro v hv
    by_cases hdb : v ∈ dbTags cat
    · apply (hmem v).mpr
      left
      refine ⟨hdb, fun hmm => ?_⟩
      have h2 := (List.mem_filter.mp hmm).2
      rw [Bool.not_eq_true', Bool.eq_false_iff] at h2
      exact h2 (contains_eq_true_of_mem hv)
    · apply (hmem v).mpr
      right
      apply List.mem_filter.mpr
      refine ⟨List.mem_dedup.mpr hv, ?_⟩
      rw [Bool.not_eq_true']
      exact contains_eq_false_of_not_mem hdb
  have hm : reconcileMissing env (inventory_and_index env cat) = [] := by
    rw [reconcileMissing, List.filter_eq_nil_iff]
    intro v hv
    rw [Bool.not_eq_true, Bool.not_eq_false']
    exact contains_eq_true_of_mem (hsub v hv)
  have hn : reconcileNew env (inventory_and_index env cat) = [] := by
    rw [reconcileNew, List.filter_eq_nil_iff]
    intro v hv
    rw [Bool.not_eq_true, Bool.not_eq_false']
    exact contains_eq_true_of_mem (hsub2 v (List.mem_dedup.mp hv))
  refine ⟨hm, hn, ?_⟩
  have h0 : inventory_and_index env (inventory_and_index env cat) =
      (reconcileNew env (inventory_and_index env cat)).foldl (applyIndex env)
        ((reconcileMissing env (inventory_and_index env cat)).foldl dropTape
          (inventory_and_index env cat)) := rfl
  rw [h0, hm, hn]
  rfl

theorem reconcile_idempotent_witness :
    (∀ v ∈ reconcileNew envRecW catEmpty, (envRecW.indexResult v).isSome = true) ∧
    reconcileMissing envRecW (inventory_and_index envRecW catEmpty) = [] ∧
    reconcileNew envRecW (inventory_and_index envRecW catEmpty) = [] :=
  ⟨by decide, (reconcile_idempotent envRecW catEmpty (by decide)).1,
   (reconcile_idempotent envRecW catEmpty (by decide)).2.1⟩

/-- C9 counterexample: a line that contains `IMPORT/EXPORT` but also matches
the storage pattern does contribute to the snapshot, because the code tests
the two patterns before the `IMPORT/EXPORT` guard; so "every line containing
IMPORT/EXPORT contributes nothing" is false as stated. -/
theorem import_export_line_counterexample :
    containsSub "IMPORT/EXPORT".data ieLine.data = true ∧
    parseMtxStatus [ieLine] = ⟨[("7", "ABC")], none⟩ ∧
    parseMtxStatus [ieLine] ≠ parseMtxStatus [] := by
  decide

/-- C9 amended: each stripped line is processed totally (no line can fail
the probe): a drive-pattern match records the drive's volume tag, otherwise
a storage-pattern match records the slot-to-tag entry, and every other line
— in particular an `IMPORT/EXPORT` line matching neither pattern —
contributes nothing to the snapshot. -/
theorem parse_mtx_line_characterization (st : Snapshot) (line : String) :
    (∀ d t, reSearch driveLit (pyStrip line.data) = some (d, t) →
      parseLine st line = { st with driveLoaded := some (d, t) }) ∧
    (reSearch driveLit (pyStrip line.data) = none →
      ∀ n t, reSearch storageLit (pyStrip line.data) = some (n, t) →
        parseLine st line = { st with slots := assocSet st.slots n t }) ∧
    (reSearch driveLit (pyStrip line.data) = none →
      reSearch storageLit (pyStrip line.data) = none →
      parseLine st line = st) := by
  refine ⟨fun d t h => ?_, fun h1 n t h2 => ?_, fun h1 h2 => ?_⟩
  · simp [parseLine, h]
  · simp [parseLine, h1, h2]
  · simp [parseLine, h1, h2]

theorem parse_mtx_line_witness :
    (reSearch storageLit (pyStrip "  Storage Element 4:Full :VolumeTag=VOL004  ".data) =
        some ("4", "VOL004")) ∧
    parseLine ⟨[], none⟩ "  Storage Element 4:Full :VolumeTag=VOL004  " =
      ⟨[("4", "VOL004")], none⟩ := by
  refine ⟨by decide, ?_⟩
  have h := (parse_mtx_line_characterization ⟨[], none⟩
      "  Storage Element 4:Full :VolumeTag=VOL004  ").2.1 (by decide) "4" "VOL004" (by decide)
  exact h

theorem cache_hit_witness :
    (cacheExists wHit (cachePathOf "VOL001" "data/a.bin") = true) ∧
    ((fetch_file envDummy wHit "VOL001" "data/a.bin").2 =
        [Event.lockAcquire, Event.lockRelease]) ∧
    ((openOp envDummy catW wHit "/data/a.bin" 0).2.2 =
        [Event.osOpen (cachePathOf "VOL001" (lstripSlash "/data/a.bin")) 0]) :=
  ⟨by decide,
   (cache_hit_no_subprocess_no_lock envDummy catW wHit "/data/a.bin" 0 "VOL001" "data/a.bin"
     ⟨"VOL001", "data/a.bin", 100, 1000⟩ (by decide) (by decide) (by decide)).1,
   (cache_hit_no_subprocess_no_lock envDummy catW wHit "/data/a.bin" 0 "VOL001" "data/a.bin"
     ⟨"VOL001", "data/a.bin", 100, 1000⟩ (by decide) (by decide) (by decide)).2.2.1⟩

end TapeVault
